import Mathlib

/-!
Shallow embedding of the `ms_ipv6` download transport and CLI glue
(`src/ms_ipv6/utils.py`, `src/ms_ipv6/cli.py`), together with a
spec-modelled plan executor (`ms_ipv6/downloader.py` is not part of the
sources available here).

The network, DNS and filesystem are modelled as explicit environment
records; Python exceptions become `Except` / explicit result constructors.
-/

/-- Socket address families used by the code (`socket.AF_INET`,
`socket.AF_INET6`). -/
inductive AddrFamily
  | AF_INET
  | AF_INET6
  deriving DecidableEq, Repr

/-- An IPv6-capable socket address, modelling the sockaddr tuples returned
by `socket.getaddrinfo` / `socket.getpeername`. -/
structure SockAddr where
  host : String
  port : Nat
  flowinfo : Nat := 0
  scope_id : Nat := 0
  deriving DecidableEq, Repr

/-- One 5-tuple entry of a `socket.getaddrinfo` result; the code
destructures `_, _, _, _, sockaddr = addr_info[0]`, so only the last slot
is consumed. -/
structure AddrInfo where
  family : AddrFamily
  socktype : Nat
  proto : Nat
  canonname : String
  sockaddr : SockAddr
  deriving DecidableEq, Repr

/-- A value that Python's `float()` is applied to in
`sock.settimeout(float(connect_timeout))`: either a number or something
whose conversion raises (the exception is swallowed by the code). -/
inductive TimVal
  | num (q : ℚ)
  | nonNum
  deriving DecidableEq

/-- The `self.timeout` attribute of the urllib3 connection as read by
`_new_conn` (utils.py lines 134-137): absent/None, a urllib3 `Timeout`
object carrying an optional `connect_timeout`, or a plain value. -/
inductive ConnTimeoutAttr
  | absent
  | obj (connect_timeout : Option TimVal)
  | plain (v : TimVal)
  deriving DecidableEq

/-- The timeout actually installed on the socket by utils.py lines
134-142: `connect_timeout = getattr(getattr(self, "timeout", None),
"connect_timeout", None)`, falling back to `getattr(self, "timeout",
None)`; `float(...)` failures are swallowed, leaving no timeout set. -/
def effectiveTimeout : ConnTimeoutAttr → Option ℚ
  | .absent => none
  | .obj (some (.num q)) => some q
  | .obj (some .nonNum) => none
  | .obj none => none
  | .plain (.num q) => some q
  | .plain .nonNum => none

/-- The model of a Python `socket.socket`: the family it was created with,
the timeout installed by `settimeout`, and the peer it was connected to. -/
structure Socket where
  family : AddrFamily
  timeout : Option ℚ := none
  connectedTo : Option SockAddr := none
  deriving DecidableEq

/-- Constructor-time configuration shared by `IPv6OnlyHTTPAdapter` and
`ObservingHTTPAdapter` (utils.py lines 94-111, 239-250): whether an
`on_connect` callback was supplied and the `record_last` flag. -/
structure AdapterConfig where
  hasOnConnect : Bool
  record_last : Bool
  deriving DecidableEq

/-- The mutable adapter attributes `last_socket_family` / `last_sockaddr`
(utils.py lines 110-111, 249-250), both initialised to `None`. -/
structure AdapterState where
  last_socket_family : Option AddrFamily
  last_sockaddr : Option SockAddr
  deriving DecidableEq

/-- The initial adapter state set in `__init__`. -/
def AdapterState.init : AdapterState := { last_socket_family := none, last_sockaddr := none }

/-- Environment oracle for one `IPv6HTTPConnection._new_conn` call:
`getaddrinfo` keyed by the family argument the code passes (an error is a
`socket.gaierror` with its message), whether `sock.connect` raises an
`OSError` for a given address, the result of `sock.getpeername()`
(`none` models a raised exception), and whether the `on_connect`
callback raises. -/
structure DialEnv where
  getaddrinfo : String → Nat → AddrFamily → Except String (List AddrInfo)
  connectFails : SockAddr → Bool
  peername : Option SockAddr
  cbRaises : Bool

/-- Outcome of `_new_conn`: a connected socket, a `ConnectionError` raised
from a caught `socket.gaierror` (utils.py lines 166-167), or an uncaught
`OSError` from `sock.connect` propagating to the caller. -/
inductive ConnResult
  | ok (sock : Socket)
  | connectionError (msg : String)
  | osError
  deriving DecidableEq

/-- Observable effects of one `_new_conn` call: the result, the adapter
state afterwards, the argument the `on_connect` callback was invoked with
(`none` when it was not invoked; the inner value is the `peer` argument,
which Python allows to be `None` in the observing variant), and the debug
log lines emitted. -/
structure ConnEffects where
  result : ConnResult
  state : AdapterState
  cbCall : Option (Option SockAddr)
  debugLogs : List String
  deriving DecidableEq

/-- Model of `IPv6HTTPConnection._new_conn` (utils.py lines 122-167). Resolution is
requested with `socket.AF_INET6`; an empty result raises a
`socket.gaierror` which — like a resolution failure — is caught and
re-raised as `ConnectionError`. The socket is created with
`socket.AF_INET6` and connected to the first resolved address; a
`getpeername` failure falls back to that resolved address; recording and
the callback run only after a successful connect, and a callback exception
is logged at debug level and swallowed. `sock.connect` failures are
`OSError`, not `gaierror`, so they propagate unchanged. -/
def IPv6HTTPConnection.new_conn (cfg : AdapterConfig) (st : AdapterState)
    (host : String) (port : Nat) (tmo : ConnTimeoutAttr) (env : DialEnv) : ConnEffects :=
  match env.getaddrinfo host port AddrFamily.AF_INET6 with
  | .error e =>
      { result := .connectionError ("IPv6 connection failed for " ++ host ++ ": " ++ e),
        state := st, cbCall := none, debugLogs := [] }
  | .ok [] =>
      { result := .connectionError
          ("IPv6 connection failed for " ++ host ++ ": No IPv6 addresses found for " ++ host),
        state := st, cbCall := none, debugLogs := [] }
  | .ok (ai :: _) =>
      let sockaddr := ai.sockaddr
      let sock0 : Socket :=
        { family := AddrFamily.AF_INET6, timeout := effectiveTimeout tmo, connectedTo := none }
      if env.connectFails sockaddr then
        { result := .osError, state := st, cbCall := none, debugLogs := [] }
      else
        let sock : Socket := { sock0 with connectedTo := some sockaddr }
        let peer : SockAddr :=
          match env.peername with
          | some p => p
          | none => sockaddr
        let st1 : AdapterState :=
          if cfg.record_last then
            { last_socket_family := some sock.family, last_sockaddr := some peer }
          else st
        if cfg.hasOnConnect then
          if env.cbRaises then
            { result := .ok sock, state := st1, cbCall := some (some peer),
              debugLogs := ["on_connect callback raised"] }
          else
            { result := .ok sock, state := st1, cbCall := some (some peer), debugLogs := [] }
        else
          { result := .ok sock, state := st1, cbCall := none, debugLogs := [] }

/-- Environment oracle for one `ObservingHTTPConnection._new_conn` call:
the result of the base (system dual-stack) `_new_conn` from urllib3, the
result of `sock.getpeername()` on the returned socket (`none` models a
raised exception), and whether the `on_connect` callback raises. -/
structure ObsEnv where
  baseNewConn : Except Unit Socket
  peername : Option SockAddr
  cbRaises : Bool

/-- Observable effects of one observing `_new_conn` call. -/
structure ObsEffects where
  result : Except Unit Socket
  state : AdapterState
  cbCall : Option (Option SockAddr)
  debugLogs : List String

/-- Model of `ObservingHTTPConnection._new_conn` (utils.py lines 261-281). The base
implementation's socket is obtained first (its exceptions propagate);
everything after is wrapped in `try: ... except Exception: pass`:
`sockaddr` stays `None` when `getpeername` raises, recording happens only
under `record_last`, a callback exception is logged at debug level and
swallowed, and the base socket is returned unchanged. -/
def ObservingHTTPConnection.new_conn (cfg : AdapterConfig) (st : AdapterState)
    (env : ObsEnv) : ObsEffects :=
  match env.baseNewConn with
  | .error e => { result := .error e, state := st, cbCall := none, debugLogs := [] }
  | .ok sock =>
      let sockaddr : Option SockAddr := env.peername
      let st1 : AdapterState :=
        if cfg.record_last then
          { last_socket_family := some sock.family, last_sockaddr := sockaddr }
        else st
      if cfg.hasOnConnect then
        if env.cbRaises then
          { result := .ok sock, state := st1, cbCall := some sockaddr,
            debugLogs := ["on_connect callback raised"] }
        else
          { result := .ok sock, state := st1, cbCall := some sockaddr, debugLogs := [] }
      else
        { result := .ok sock, state := st1, cbCall := none, debugLogs := [] }

/-- Abstract token for the `requests` response object produced by
`HTTPAdapter.send`; the adapters return it unchanged. -/
structure Response where
  id : Nat
  deriving DecidableEq

/-- The ways the post-request introspection in `send` (utils.py lines
195-222, 306-330) can go: a live socket found at
`response.raw._connection.sock`, one found at
`response.raw._fp.fp.raw._sock`, neither path yielding a socket, or an
attribute access raising (caught by the surrounding
`try: ... except Exception: pass`). In the first two cases `getpeername`
may itself raise (`.error`), in which case the code uses
`self.last_sockaddr`. -/
inductive RawIntrospection
  | viaConnection (sock : Socket) (peer : Except Unit SockAddr)
  | viaFp (sock : Socket) (peer : Except Unit SockAddr)
  | unavailable
  | raisesAttr

/-- Environment for one `send` call: the outcome of the base
`HTTPAdapter.send` and what introspection of `response.raw` finds. -/
structure SendEnv where
  baseSend : Except Unit Response
  introspect : RawIntrospection

/-- Model of the family formatting dict lookup with default `str(fam)`
with `fam` possibly `None` (utils.py line 228). -/
def famToStr : Option AddrFamily → String
  | some .AF_INET => "IPv4"
  | some .AF_INET6 => "IPv6"
  | none => "None"

/-- The single debug log line emitted per completed request:
`"request: url=%s family=%s peer=%s"`. -/
structure LogLine where
  url : String
  family : String
  peer : Option SockAddr
  deriving DecidableEq

/-- Model of `IPv6OnlyHTTPAdapter.send` (utils.py lines 193-230). The base `send`
runs first (its exceptions propagate, no logging happens). Then, best
effort: a socket found through `response.raw` supplies `fam`; its
`getpeername` supplies `peer`, falling back to `last_sockaddr` if it
raises; any attribute error is swallowed. Whatever is still `None`
afterwards is filled from `last_socket_family` / `last_sockaddr`; one
debug line is logged and the base response is returned unchanged. -/
def IPv6OnlyHTTPAdapter.send (st : AdapterState) (url : String) (env : SendEnv) :
    Except Unit (Response × LogLine) :=
  match env.baseSend with
  | .error e => .error e
  | .ok response =>
      let fp : Option AddrFamily × Option SockAddr :=
        match env.introspect with
        | .viaConnection sock peerRes =>
            (some sock.family,
              match peerRes with
              | .ok p => some p
              | .error _ => st.last_sockaddr)
        | .viaFp sock peerRes =>
            (some sock.family,
              match peerRes with
              | .ok p => some p
              | .error _ => st.last_sockaddr)
        | .unavailable => (none, none)
        | .raisesAttr => (none, none)
      let fam : Option AddrFamily :=
        match fp.1 with
        | some f => some f
        | none => st.last_socket_family
      let peer : Option SockAddr :=
        match fp.2 with
        | some p => some p
        | none => st.last_sockaddr
      .ok (response, { url := url, family := famToStr fam, peer := peer })

/-- Model of `ObservingHTTPAdapter.send` (utils.py lines 304-337); its body is
line-for-line the same best-effort introspection and logging as
`IPv6OnlyHTTPAdapter.send`. -/
def ObservingHTTPAdapter.send (st : AdapterState) (url : String) (env : SendEnv) :
    Except Unit (Response × LogLine) :=
  match env.baseSend with
  | .error e => .error e
  | .ok response =>
      let fp : Option AddrFamily × Option SockAddr :=
        match env.introspect with
        | .viaConnection sock peerRes =>
            (some sock.family,
              match peerRes with
              | .ok p => some p
              | .error _ => st.last_sockaddr)
        | .viaFp sock peerRes =>
            (some sock.family,
              match peerRes with
              | .ok p => some p
              | .error _ => st.last_sockaddr)
        | .unavailable => (none, none)
        | .raisesAttr => (none, none)
      let fam : Option AddrFamily :=
        match fp.1 with
        | some f => some f
        | none => st.last_socket_family
      let peer : Option SockAddr :=
        match fp.2 with
        | some p => some p
        | none => st.last_sockaddr
      .ok (response, { url := url, family := famToStr fam, peer := peer })

/-- A filesystem model for `ensure_dir`: the sets of existing directories
and regular files, each named by its list of path components. The root
(empty component list) is implicitly a directory. -/
structure FS where
  dirs : List (List String)
  files : List (List String)
  deriving DecidableEq

/-- Whether a directory exists at path `p`. -/
def FS.hasDir (fs : FS) (p : List String) : Prop := p ∈ fs.dirs

/-- Whether a regular file exists at path `p`. -/
def FS.hasFile (fs : FS) (p : List String) : Prop := p ∈ fs.files

instance (fs : FS) (p : List String) : Decidable (fs.hasDir p) := by
  unfold FS.hasDir
  infer_instance

instance (fs : FS) (p : List String) : Decidable (fs.hasFile p) := by
  unfold FS.hasFile
  infer_instance

/-- The nonempty prefixes of a component list, shortest first: the
chain of directories `Path.mkdir(parents=True)` creates top-down. -/
def pathPrefixes (p : List String) : List (List String) :=
  (List.range p.length).map (fun i => p.take (i + 1))

/-- Split a character list on `/`, keeping empty segments (as
`str.split("/")` would). -/
def splitSlash : List Char → List Char → List String
  | [], acc => [String.mk acc.reverse]
  | c :: rest, acc =>
      if c = '/' then String.mk acc.reverse :: splitSlash rest []
      else splitSlash rest (c :: acc)

/-- How `pathlib.Path` parses the path string handed to `ensure_dir`:
split on `/`, dropping empty and `.` components. -/
def splitPath (s : String) : List String :=
  (splitSlash s.toList []).filter (fun c => c != "" && c != ".")

/-- One `os.mkdir`-with-`exist_ok` step as performed by
`Path.mkdir(parents=True, exist_ok=True)` for each path on the chain: a
regular file at the path makes the call raise even with `exist_ok=True`;
an existing directory is accepted; otherwise the directory is created. -/
def mkdirOne (fs : FS) (q : List String) : Except Unit FS :=
  if fs.hasFile q then .error ()
  else if fs.hasDir q then .ok fs
  else .ok { fs with dirs := fs.dirs ++ [q] }

/-- Model of `Path(path).mkdir(parents=True, exist_ok=True)`: create every missing
directory along the chain, top-down. -/
def mkdirParents (fs : FS) (p : List String) : Except Unit FS :=
  (pathPrefixes p).foldlM mkdirOne fs

/-- Model of `ensure_dir` (utils.py lines 56-68): `dir_path = Path(path);
dir_path.mkdir(parents=True, exist_ok=True); return dir_path`. Returns the
parsed path together with the updated filesystem. -/
def ensure_dir (fs : FS) (path : String) : Except Unit (List String × FS) :=
  match mkdirParents fs (splitPath path) with
  | .error e => .error e
  | .ok fs1 => .ok (splitPath path, fs1)

/-- The argparse namespace produced for the `download` subcommand
(cli.py lines 75-99), with each option's declared default. -/
structure DownloadArgs where
  plan : Option String
  local_dir : Option String
  workers : Int
  overwrite : Bool
  no_skip_existing : Bool
  only_raw : Bool
  only_no_raw : Bool
  timeout : Int
  deriving DecidableEq

/-- Defaults declared by `create_parser` for the `download` subcommand:
`--workers` defaults to 4, `--timeout` to 60, every `store_true` flag to
false. -/
def defaultDownloadArgs : DownloadArgs :=
  { plan := none, local_dir := none, workers := 4, overwrite := false,
    no_skip_existing := false, only_raw := false, only_no_raw := false, timeout := 60 }

/-- One `download` option given on the command line. -/
inductive DlOpt
  | planPath (p : String)
  | local_dir (d : String)
  | workers (n : Int)
  | overwrite
  | no_skip_existing
  | only_raw
  | only_no_raw
  | timeout (n : Int)
  deriving DecidableEq

/-- The effect of one given option on the parsed namespace (a
`store_true` flag sets its attribute to true; a valued option stores its
value). -/
def applyDlOpt (a : DownloadArgs) : DlOpt → DownloadArgs
  | .planPath p => { a with plan := some p }
  | .local_dir d => { a with local_dir := some d }
  | .workers n => { a with workers := n }
  | .overwrite => { a with overwrite := true }
  | .no_skip_existing => { a with no_skip_existing := true }
  | .only_raw => { a with only_raw := true }
  | .only_no_raw => { a with only_no_raw := true }
  | .timeout n => { a with timeout := n }

/-- Parsing the `download` subcommand's options: start from the declared
defaults and apply the given options in order. -/
def parseDownloadArgs (given : List DlOpt) : DownloadArgs :=
  given.foldl applyDlOpt defaultDownloadArgs

/-- Whether an option is `--workers N`. -/
def isWorkersOpt : DlOpt → Bool
  | .workers _ => true
  | _ => false

/-- Whether an option is `--timeout N`. -/
def isTimeoutOpt : DlOpt → Bool
  | .timeout _ => true
  | _ => false

/-- Whether an option is `--no-skip-existing`. -/
def isNoSkipOpt : DlOpt → Bool
  | .no_skip_existing => true
  | _ => false

/-- The keyword arguments `main` passes to
`downloader.download_from_plan` (cli.py lines 125-134). -/
structure DownloadCall where
  plan : Option String
  local_dir : Option String
  workers : Int
  overwrite : Bool
  skip_existing : Bool
  timeout : Int
  only_raw : Bool
  only_no_raw : Bool
  deriving DecidableEq

/-- The option mapping in `main` for the `download` command (cli.py lines
125-134): every argument is passed through except `skip_existing`, which
is `not args.no_skip_existing`. -/
def mainDownloadCall (a : DownloadArgs) : DownloadCall :=
  { plan := a.plan, local_dir := a.local_dir, workers := a.workers,
    overwrite := a.overwrite, skip_existing := !a.no_skip_existing,
    timeout := a.timeout, only_raw := a.only_raw, only_no_raw := a.only_no_raw }

/-- One entry of a persisted plan file (spec section 6):
`{ "path": string, "raw_url": string|null, "fallback_url": string|null,
"size": integer|null }`. -/
structure ManifestEntry where
  path : String
  raw_url : Option String
  fallback_url : Option String
  size : Option Nat
  deriving DecidableEq

/-- Options of the plan executor that decide each entry's outcome
(spec section 4.4). -/
structure ExecOptions where
  overwrite : Bool
  skip_existing : Bool
  only_raw : Bool
  only_no_raw : Bool
  deriving DecidableEq

/-- Environment of one executor run: whether each destination path already
exists, and whether downloading a given URL succeeds. -/
structure ExecEnv where
  destExists : String → Bool
  downloadOk : String → Bool

/-- Terminal state of one download job. -/
inductive JobOutcome
  | success
  | skipped
  | failed
  deriving DecidableEq

/-- Modelled from the spec: URL selection per entry (spec section 4.4
step 2) of `ModelScopeDownloader.download_from_plan`, whose source
(ms_ipv6/downloader.py) is not among the available files — prefer the
primary (raw) URL when present, otherwise the fallback URL. -/
def chooseUrl (e : ManifestEntry) : Option String :=
  match e.raw_url with
  | some u => some u
  | none => e.fallback_url

/-- Modelled from the spec: the per-entry outcome decided by
`ModelScopeDownloader.download_from_plan` (ms_ipv6/downloader.py, not
among the available files; spec section 4.4 steps 1-5): entries excluded
by the `only_raw` / `only_no_raw` filters are counted as skipped; an entry
with no usable URL fails; an existing destination with `overwrite` false
and `skip_existing` true is skipped without network access; otherwise the
download runs and succeeds or fails. -/
def classifyEntry (opts : ExecOptions) (env : ExecEnv) (e : ManifestEntry) : JobOutcome :=
  if opts.only_raw && e.raw_url.isNone then .skipped
  else if opts.only_no_raw && e.raw_url.isSome then .skipped
  else
    match chooseUrl e with
    | none => .failed
    | some url =>
        if env.destExists e.path && !opts.overwrite && opts.skip_existing then .skipped
        else if env.downloadOk url then .success else .failed

/-- The aggregate result summary printed by the CLI:
`total`, `success`, `skipped`, `failed`. -/
structure Summary where
  total : Nat
  success : Nat
  skipped : Nat
  failed : Nat
  deriving DecidableEq

/-- Fold one job outcome into the summary counters. -/
def countOutcome (s : Summary) : JobOutcome → Summary
  | .success => { s with success := s.success + 1 }
  | .skipped => { s with skipped := s.skipped + 1 }
  | .failed => { s with failed := s.failed + 1 }

/-- Modelled from the spec: `ModelScopeDownloader.download_from_plan`
(ms_ipv6/downloader.py, not among the available files; spec section 4.4
step 6) — `total` counts every entry considered before dispatch, and each
entry contributes exactly one terminal outcome to the counters. -/
def executePlan (opts : ExecOptions) (env : ExecEnv) (entries : List ManifestEntry) : Summary :=
  entries.foldl (fun s e => countOutcome s (classifyEntry opts env e))
    { total := entries.length, success := 0, skipped := 0, failed := 0 }

/-- The peer value computed after a successful ForceV6 connect:
`sock.getpeername()`, falling back to the resolved address when it
raises (utils.py lines 147-151). -/
def peerOf (env : DialEnv) (ai : AddrInfo) : SockAddr :=
  match env.peername with
  | some p => p
  | none => ai.sockaddr

/-- Shape of every successful `IPv6HTTPConnection._new_conn` run: the
IPv6-restricted resolution produced a nonempty list, the connect to its
first address did not fail, and the full effects are determined by the
configuration and the peer value. -/
theorem new_conn_ok_shape (cfg : AdapterConfig) (st : AdapterState)
    (host : String) (port : Nat) (tmo : ConnTimeoutAttr) (env : DialEnv) (sock : Socket)
    (h : (IPv6HTTPConnection.new_conn cfg st host port tmo env).result = .ok sock) :
    ∃ ai rest, env.getaddrinfo host port AddrFamily.AF_INET6 = .ok (ai :: rest) ∧
      env.connectFails ai.sockaddr = false ∧
      sock = { family := AddrFamily.AF_INET6, timeout := effectiveTimeout tmo,
               connectedTo := some ai.sockaddr } ∧
      IPv6HTTPConnection.new_conn cfg st host port tmo env =
        { result := .ok sock,
          state :=
            if cfg.record_last then
              { last_socket_family := some AddrFamily.AF_INET6,
                last_sockaddr := some (peerOf env ai) }
            else st,
          cbCall := if cfg.hasOnConnect then some (some (peerOf env ai)) else none,
          debugLogs :=
            if cfg.hasOnConnect && env.cbRaises then ["on_connect callback raised"] else [] } := by
  rcases hga : env.getaddrinfo host port AddrFamily.AF_INET6 with e | l
  · simp [IPv6HTTPConnection.new_conn, hga] at h
  · cases l with
    | nil => simp [IPv6HTTPConnection.new_conn, hga] at h
    | cons ai rest =>
        by_cases hcf : env.connectFails ai.sockaddr
        · exact absurd h (by simp [IPv6HTTPConnection.new_conn, hga, hcf])
        · have hs : sock =
              { family := AddrFamily.AF_INET6, timeout := effectiveTimeout tmo,
                connectedTo := some ai.sockaddr } := by
            by_cases hoc : cfg.hasOnConnect <;> by_cases hcr : env.cbRaises <;>
              simp_all [IPv6HTTPConnection.new_conn, hga, hcf]
          subst hs
          refine ⟨ai, rest, rfl, by simpa using hcf, rfl, ?_⟩
          by_cases hoc : cfg.hasOnConnect <;> by_cases hcr : env.cbRaises <;>
            simp [IPv6HTTPConnection.new_conn, hga, hcf, hoc, hcr, peerOf]

/-- Shape of every `ObservingHTTPConnection._new_conn` run whose base
implementation produced a socket. -/
theorem obs_new_conn_ok_shape (cfg : AdapterConfig) (st : AdapterState)
    (env : ObsEnv) (sock : Socket) (h : env.baseNewConn = .ok sock) :
    ObservingHTTPConnection.new_conn cfg st env =
      { result := .ok sock,
        state :=
          if cfg.record_last then
            { last_socket_family := some sock.family, last_sockaddr := env.peername }
          else st,
        cbCall := if cfg.hasOnConnect then some env.peername else none,
        debugLogs :=
          if cfg.hasOnConnect && env.cbRaises then ["on_connect callback raised"] else [] } := by
  by_cases hoc : cfg.hasOnConnect <;>
  by_cases hcr : env.cbRaises <;>
  simp [ObservingHTTPConnection.new_conn, h, hoc, hcr]

/-- C1: In ForceV6 mode, if DNS resolution restricted to IPv6 yields zero
addresses for the host (an empty result or a resolution failure), the
connection attempt fails with the no-IPv6-address `ConnectionError` raised
to the caller, and a successful dial can only ever produce an AF_INET6
socket — the dialer never falls back to IPv4. -/
theorem forceV6_no_ipv6_addresses_fails (cfg : AdapterConfig) (st : AdapterState)
    (host : String) (port : Nat) (tmo : ConnTimeoutAttr) (env : DialEnv) :
    (env.getaddrinfo host port AddrFamily.AF_INET6 = .ok [] →
        (IPv6HTTPConnection.new_conn cfg st host port tmo env).result =
          .connectionError
            ("IPv6 connection failed for " ++ host ++ ": No IPv6 addresses found for " ++ host))
    ∧ (∀ e, env.getaddrinfo host port AddrFamily.AF_INET6 = .error e →
        (IPv6HTTPConnection.new_conn cfg st host port tmo env).result =
          .connectionError ("IPv6 connection failed for " ++ host ++ ": " ++ e))
    ∧ (∀ sock, (IPv6HTTPConnection.new_conn cfg st host port tmo env).result = .ok sock →
        sock.family = AddrFamily.AF_INET6) := by
  refine ⟨?_, ?_, ?_⟩
  · intro hga
    simp [IPv6HTTPConnection.new_conn, hga]
  · intro e hga
    simp [IPv6HTTPConnection.new_conn, hga]
  · intro sock h
    obtain ⟨ai, rest, -, -, hs, -⟩ := new_conn_ok_shape cfg st host port tmo env sock h
    rw [hs]

/-- C1 witness: a host whose IPv6-restricted resolution is empty makes the
ForceV6 dialer raise the wrapped no-address error. -/
theorem forceV6_no_ipv6_addresses_fails_witness :
    (IPv6HTTPConnection.new_conn ⟨false, false⟩ AdapterState.init "modelscope.cn" 443 .absent
        ⟨fun _ _ _ => .ok [], fun _ => false, none, false⟩).result =
      .connectionError
        "IPv6 connection failed for modelscope.cn: No IPv6 addresses found for modelscope.cn" :=
  (forceV6_no_ipv6_addresses_fails ⟨false, false⟩ AdapterState.init "modelscope.cn" 443 .absent
    ⟨fun _ _ _ => .ok [], fun _ => false, none, false⟩).1 rfl

/-- C2: For every ForceV6 connection, resolution is restricted to the IPv6
record type (the run depends on the environment only through the AF_INET6
resolution, the connect outcome, the peername and the callback), the
created socket has family AF_INET6, and it is connected to the first
address returned by the IPv6-restricted resolution. -/
theorem forceV6_resolution_restricted_to_ipv6 (cfg : AdapterConfig) (st : AdapterState)
    (host : String) (port : Nat) (tmo : ConnTimeoutAttr) (env env' : DialEnv)
    (hga : env'.getaddrinfo host port AddrFamily.AF_INET6 =
      env.getaddrinfo host port AddrFamily.AF_INET6)
    (hcf : env'.connectFails = env.connectFails)
    (hpn : env'.peername = env.peername)
    (hcb : env'.cbRaises = env.cbRaises) :
    IPv6HTTPConnection.new_conn cfg st host port tmo env' =
      IPv6HTTPConnection.new_conn cfg st host port tmo env
    ∧ ∀ sock, (IPv6HTTPConnection.new_conn cfg st host port tmo env).result = .ok sock →
        sock.family = AddrFamily.AF_INET6 ∧
        ∃ ai rest, env.getaddrinfo host port AddrFamily.AF_INET6 = .ok (ai :: rest) ∧
          sock.connectedTo = some ai.sockaddr := by
  constructor
  · unfold IPv6HTTPConnection.new_conn
    rw [hga, hcf, hpn, hcb]
  · intro sock h
    obtain ⟨ai, rest, hres, -, hs, -⟩ := new_conn_ok_shape cfg st host port tmo env sock h
    exact ⟨by rw [hs], ai, rest, hres, by rw [hs]⟩

/-- C2 witness: a concrete ForceV6 dial against a host resolving to one
IPv6 address connects the AF_INET6 socket to that first address, and is
unaffected by what resolution would return for other families. -/
theorem forceV6_resolution_restricted_to_ipv6_witness :
    (IPv6HTTPConnection.new_conn ⟨false, false⟩ AdapterState.init "modelscope.cn" 443 .absent
        ⟨fun _ _ fam => if fam = AddrFamily.AF_INET6 then
            .ok [⟨AddrFamily.AF_INET6, 1, 6, "", ⟨"2001:db8::7", 443, 0, 0⟩⟩] else .ok [],
          fun _ => false, none, false⟩ =
      IPv6HTTPConnection.new_conn ⟨false, false⟩ AdapterState.init "modelscope.cn" 443 .absent
        ⟨fun _ _ _ => .ok [⟨AddrFamily.AF_INET6, 1, 6, "", ⟨"2001:db8::7", 443, 0, 0⟩⟩],
          fun _ => false, none, false⟩)
    ∧ ∀ sock,
        (IPv6HTTPConnection.new_conn ⟨false, false⟩ AdapterState.init "modelscope.cn" 443 .absent
          ⟨fun _ _ _ => .ok [⟨AddrFamily.AF_INET6, 1, 6, "", ⟨"2001:db8::7", 443, 0, 0⟩⟩],
            fun _ => false, none, false⟩).result = .ok sock →
        sock.family = AddrFamily.AF_INET6 ∧
        ∃ ai rest,
          (Except.ok [⟨AddrFamily.AF_INET6, 1, 6, "", ⟨"2001:db8::7", 443, 0, 0⟩⟩] :
              Except String (List AddrInfo)) = .ok (ai :: rest) ∧
          sock.connectedTo = some ai.sockaddr :=
  forceV6_resolution_restricted_to_ipv6 ⟨false, false⟩ AdapterState.init "modelscope.cn" 443
    .absent
    ⟨fun _ _ _ => .ok [⟨AddrFamily.AF_INET6, 1, 6, "", ⟨"2001:db8::7", 443, 0, 0⟩⟩],
      fun _ => false, none, false⟩
    ⟨fun _ _ fam => if fam = AddrFamily.AF_INET6 then
        .ok [⟨AddrFamily.AF_INET6, 1, 6, "", ⟨"2001:db8::7", 443, 0, 0⟩⟩] else .ok [],
      fun _ => false, none, false⟩
    (by rfl) rfl rfl rfl

/-- C3: In Observe mode, `_new_conn` returns exactly the connection
produced by the base (system dual-stack) implementation, for every
configuration of recording, callback and callback failure — observation
never alters which socket is returned. -/
theorem observe_mode_returns_base_connection (cfg : AdapterConfig) (st : AdapterState)
    (env : ObsEnv) :
    (ObservingHTTPConnection.new_conn cfg st env).result = env.baseNewConn := by
  rcases hb : env.baseNewConn with e | sock
  · simp [ObservingHTTPConnection.new_conn, hb]
  · rw [obs_new_conn_ok_shape cfg st env sock hb]

/-- C4: For both adapters, a raising `on_connect` callback has no effect
on the connection result or recorded state, and when a connection
succeeds with a configured raising callback, the exception is logged at
debug level — it never aborts the connection. -/
theorem on_connect_exception_swallowed (cfg : AdapterConfig) (st : AdapterState)
    (host : String) (port : Nat) (tmo : ConnTimeoutAttr) (denv : DialEnv) (oenv : ObsEnv)
    (hoc : cfg.hasOnConnect = true) :
    ((IPv6HTTPConnection.new_conn cfg st host port tmo { denv with cbRaises := true }).result =
      (IPv6HTTPConnection.new_conn cfg st host port tmo { denv with cbRaises := false }).result)
    ∧ ((IPv6HTTPConnection.new_conn cfg st host port tmo { denv with cbRaises := true }).state =
      (IPv6HTTPConnection.new_conn cfg st host port tmo { denv with cbRaises := false }).state)
    ∧ (∀ sock, (IPv6HTTPConnection.new_conn cfg st host port tmo denv).result = .ok sock →
        denv.cbRaises = true →
        (IPv6HTTPConnection.new_conn cfg st host port tmo denv).debugLogs =
          ["on_connect callback raised"])
    ∧ ((ObservingHTTPConnection.new_conn cfg st { oenv with cbRaises := true }).result =
      (ObservingHTTPConnection.new_conn cfg st { oenv with cbRaises := false }).result)
    ∧ ((ObservingHTTPConnection.new_conn cfg st { oenv with cbRaises := true }).state =
      (ObservingHTTPConnection.new_conn cfg st { oenv with cbRaises := false }).state)
    ∧ (∀ sock, (ObservingHTTPConnection.new_conn cfg st oenv).result = .ok sock →
        oenv.cbRaises = true →
        (ObservingHTTPConnection.new_conn cfg st oenv).debugLogs =
          ["on_connect callback raised"]) := by
  have hv6 : ∀ b, IPv6HTTPConnection.new_conn cfg st host port tmo { denv with cbRaises := b } =
      IPv6HTTPConnection.new_conn cfg st host port tmo
        ⟨denv.getaddrinfo, denv.connectFails, denv.peername, b⟩ := by
    intro b; rfl
  refine ⟨?_, ?_, ?_, ?_, ?_, ?_⟩
  · rw [hv6, hv6]
    rcases hga : denv.getaddrinfo host port AddrFamily.AF_INET6 with e | l
    · simp [IPv6HTTPConnection.new_conn, hga]
    · cases l with
      | nil => simp [IPv6HTTPConnection.new_conn, hga]
      | cons ai rest =>
          by_cases hcf : denv.connectFails ai.sockaddr <;>
            simp [IPv6HTTPConnection.new_conn, hga, hcf, hoc]
  · rw [hv6, hv6]
    rcases hga : denv.getaddrinfo host port AddrFamily.AF_INET6 with e | l
    · simp [IPv6HTTPConnection.new_conn, hga]
    · cases l with
      | nil => simp [IPv6HTTPConnection.new_conn, hga]
      | cons ai rest =>
          by_cases hcf : denv.connectFails ai.sockaddr <;>
            simp [IPv6HTTPConnection.new_conn, hga, hcf, hoc]
  · intro sock h hraise
    obtain ⟨ai, rest, -, -, -, heff⟩ := new_conn_ok_shape cfg st host port tmo denv sock h
    rw [heff]
    simp [hoc, hraise]
  · rcases hb : oenv.baseNewConn with e | sock
    · simp [ObservingHTTPConnection.new_conn, hb]
    · simp [ObservingHTTPConnection.new_conn, hoc]
  · rcases hb : oenv.baseNewConn with e | sock
    · simp [ObservingHTTPConnection.new_conn, hb]
    · simp [ObservingHTTPConnection.new_conn, hoc]
  · intro sock h hraise
    rcases hb : oenv.baseNewConn with e | sock1
    · simp [ObservingHTTPConnection.new_conn, hb] at h
    · rw [obs_new_conn_ok_shape cfg st oenv sock1 hb]
      simp [hoc, hraise]

/-- A concrete IPv6 address used by concrete scenarios below. -/
def addrW : SockAddr := ⟨"2001:db8::9", 443, 0, 0⟩

/-- A concrete one-entry IPv6 resolution result. -/
def aiW : AddrInfo := ⟨AddrFamily.AF_INET6, 1, 6, "", addrW⟩

/-- A concrete ForceV6 environment with a raising callback. -/
def denvW : DialEnv := ⟨fun _ _ _ => .ok [aiW], fun _ => false, none, true⟩

/-- A concrete Observe environment with a raising callback. -/
def oenvW : ObsEnv := ⟨.ok ⟨AddrFamily.AF_INET, none, none⟩, some addrW, true⟩

/-- C4 witness: on a concrete successful connection in each mode, a
raising callback leaves only a debug log line. -/
theorem on_connect_exception_swallowed_witness :
    (IPv6HTTPConnection.new_conn ⟨true, true⟩ AdapterState.init "modelscope.cn" 443 .absent
        denvW).debugLogs = ["on_connect callback raised"]
    ∧ (ObservingHTTPConnection.new_conn ⟨true, true⟩ AdapterState.init oenvW).debugLogs =
        ["on_connect callback raised"] :=
  ⟨(on_connect_exception_swallowed ⟨true, true⟩ AdapterState.init "modelscope.cn" 443 .absent
      denvW oenvW rfl).2.2.1 ⟨AddrFamily.AF_INET6, none, some addrW⟩ (by rfl) rfl,
    (on_connect_exception_swallowed ⟨true, true⟩ AdapterState.init "modelscope.cn" 443 .absent
      denvW oenvW rfl).2.2.2.2.2 ⟨AddrFamily.AF_INET, none, none⟩ (by rfl) rfl⟩

/-- A concrete ForceV6 environment whose connection succeeds and whose
peer is readable. -/
def denvC5 : DialEnv :=
  ⟨fun _ _ _ => .ok [aiW], fun _ => false, some addrW, false⟩

/-- C5 counterexample: the adapters are constructed with
`record_last=False` by default, and then a successful ForceV6 connection
leaves `last_socket_family` and `last_sockaddr` at `None` — the claim that
the last observation is updated on every successful connect fails for the
default configuration. -/
theorem last_observation_stale_without_record_last :
    (IPv6HTTPConnection.new_conn ⟨false, false⟩ AdapterState.init "modelscope.cn" 443 .absent
        denvC5).result = .ok ⟨AddrFamily.AF_INET6, none, some addrW⟩
    ∧ (IPv6HTTPConnection.new_conn ⟨false, false⟩ AdapterState.init "modelscope.cn" 443 .absent
        denvC5).state.last_sockaddr = none
    ∧ (IPv6HTTPConnection.new_conn ⟨false, false⟩ AdapterState.init "modelscope.cn" 443 .absent
        denvC5).state.last_socket_family = none :=
  ⟨rfl, rfl, rfl⟩

/-- C5 (amended): when the adapter is constructed with `record_last=True`,
every successful connection through either adapter leaves
`last_socket_family` equal to the connected socket's family and
`last_sockaddr` equal to that connection's observed peer address (in
ForceV6 mode the getpeername result or its resolved-address fallback; in
Observe mode the getpeername result). -/
theorem record_last_updates_last_observation (cfg : AdapterConfig) (st : AdapterState)
    (host : String) (port : Nat) (tmo : ConnTimeoutAttr) (denv : DialEnv) (oenv : ObsEnv)
    (hrec : cfg.record_last = true) :
    (∀ sock, (IPv6HTTPConnection.new_conn cfg st host port tmo denv).result = .ok sock →
        (IPv6HTTPConnection.new_conn cfg st host port tmo denv).state.last_socket_family =
          some sock.family
        ∧ ∃ ai rest, denv.getaddrinfo host port AddrFamily.AF_INET6 = .ok (ai :: rest) ∧
            (IPv6HTTPConnection.new_conn cfg st host port tmo denv).state.last_sockaddr =
              some (peerOf denv ai))
    ∧ (∀ sock, (ObservingHTTPConnection.new_conn cfg st oenv).result = .ok sock →
        (ObservingHTTPConnection.new_conn cfg st oenv).state.last_socket_family =
          some sock.family
        ∧ (ObservingHTTPConnection.new_conn cfg st oenv).state.last_sockaddr = oenv.peername) := by
  constructor
  · intro sock h
    obtain ⟨ai, rest, hres, -, hs, heff⟩ := new_conn_ok_shape cfg st host port tmo denv sock h
    rw [heff]
    subst hs
    exact ⟨by simp [hrec], ai, rest, hres, by simp [hrec]⟩
  · intro sock h
    rcases hb : oenv.baseNewConn with e | sock1
    · simp [ObservingHTTPConnection.new_conn, hb] at h
    · have heff := obs_new_conn_ok_shape cfg st oenv sock1 hb
      rw [heff] at h
      cases h
      rw [heff]
      exact ⟨by simp [hrec], by simp [hrec]⟩

/-- C5 witness: with `record_last=True`, a concrete successful connection
in each mode updates the last observation. -/
theorem record_last_updates_last_observation_witness :
    (∀ sock, (IPv6HTTPConnection.new_conn ⟨false, true⟩ AdapterState.init "modelscope.cn" 443
        .absent denvC5).result = .ok sock →
        (IPv6HTTPConnection.new_conn ⟨false, true⟩ AdapterState.init "modelscope.cn" 443
          .absent denvC5).state.last_socket_family = some sock.family
        ∧ ∃ ai rest, denvC5.getaddrinfo "modelscope.cn" 443 AddrFamily.AF_INET6 =
            .ok (ai :: rest) ∧
            (IPv6HTTPConnection.new_conn ⟨false, true⟩ AdapterState.init "modelscope.cn" 443
              .absent denvC5).state.last_sockaddr = some (peerOf denvC5 ai))
    ∧ (∀ sock, (ObservingHTTPConnection.new_conn ⟨false, true⟩ AdapterState.init oenvW).result =
        .ok sock →
        (ObservingHTTPConnection.new_conn ⟨false, true⟩
          AdapterState.init oenvW).state.last_socket_family = some sock.family
        ∧ (ObservingHTTPConnection.new_conn ⟨false, true⟩
            AdapterState.init oenvW).state.last_sockaddr = oenvW.peername) :=
  record_last_updates_last_observation ⟨false, true⟩ AdapterState.init "modelscope.cn" 443
    .absent denvC5 oenvW rfl

/-- C10: In ForceV6 mode, every successful connection with a configured
callback invokes it with a concrete (non-None) peer address; when
`getpeername` raised, that address is the resolved socket address from
the IPv6 DNS resolution, and with `record_last` it is also what
`last_sockaddr` records. -/
theorem forceV6_callback_peer_never_none (cfg : AdapterConfig) (st : AdapterState)
    (host : String) (port : Nat) (tmo : ConnTimeoutAttr) (env : DialEnv)
    (hoc : cfg.hasOnConnect = true) :
    ∀ sock, (IPv6HTTPConnection.new_conn cfg st host port tmo env).result = .ok sock →
      ∃ p : SockAddr,
        (IPv6HTTPConnection.new_conn cfg st host port tmo env).cbCall = some (some p)
        ∧ (cfg.record_last = true →
            (IPv6HTTPConnection.new_conn cfg st host port tmo env).state.last_sockaddr = some p)
        ∧ (env.peername = none →
            ∃ ai rest, env.getaddrinfo host port AddrFamily.AF_INET6 = .ok (ai :: rest) ∧
              p = ai.sockaddr) := by
  intro sock h
  obtain ⟨ai, rest, hres, -, -, heff⟩ := new_conn_ok_shape cfg st host port tmo env sock h
  refine ⟨peerOf env ai, ?_, ?_, ?_⟩
  · rw [heff]; simp [hoc]
  · intro hrec; rw [heff]; simp [hrec]
  · intro hpn
    exact ⟨ai, rest, hres, by simp [peerOf, hpn]⟩

/-- A concrete ForceV6 environment where `getpeername` raises, forcing the
resolved-address fallback. -/
def denvC10 : DialEnv := ⟨fun _ _ _ => .ok [aiW], fun _ => false, none, false⟩

/-- C10 witness: with a configured callback and a raising `getpeername`,
the concrete successful connection still hands the callback a concrete
peer address. -/
theorem forceV6_callback_peer_never_none_witness :
    ∃ p : SockAddr,
      (IPv6HTTPConnection.new_conn ⟨true, true⟩ AdapterState.init "modelscope.cn" 443
        .absent denvC10).cbCall = some (some p)
      ∧ ((⟨true, true⟩ : AdapterConfig).record_last = true →
          (IPv6HTTPConnection.new_conn ⟨true, true⟩ AdapterState.init "modelscope.cn" 443
            .absent denvC10).state.last_sockaddr = some p)
      ∧ (denvC10.peername = none →
          ∃ ai rest, denvC10.getaddrinfo "modelscope.cn" 443 AddrFamily.AF_INET6 =
            .ok (ai :: rest) ∧ p = ai.sockaddr) :=
  forceV6_callback_peer_never_none ⟨true, true⟩ AdapterState.init "modelscope.cn" 443
    .absent denvC10 rfl ⟨AddrFamily.AF_INET6, none, some addrW⟩ (by rfl)

/-- C6: For every completed request, each adapter's `send` returns the
response obtained from the base implementation unchanged together with
exactly one diagnostic log line carrying the request URL; and when
introspection of the underlying stream yields no socket, the logged
family and peer fall back to the last recorded observation. Introspection
never fails the request. -/
theorem adapter_send_logs_and_returns_base_response (st : AdapterState) (url : String)
    (env : SendEnv) (resp : Response) (hok : env.baseSend = .ok resp) :
    (∃ line : LogLine, IPv6OnlyHTTPAdapter.send st url env = .ok (resp, line)
      ∧ line.url = url
      ∧ ((env.introspect = .unavailable ∨ env.introspect = .raisesAttr) →
          line.family = famToStr st.last_socket_family ∧ line.peer = st.last_sockaddr))
    ∧ (∃ line : LogLine, ObservingHTTPAdapter.send st url env = .ok (resp, line)
      ∧ line.url = url
      ∧ ((env.introspect = .unavailable ∨ env.introspect = .raisesAttr) →
          line.family = famToStr st.last_socket_family ∧ line.peer = st.last_sockaddr)) := by
  refine ⟨?_, ?_⟩ <;>
  · rcases hin : env.introspect with ⟨sock, peerRes⟩ | ⟨sock, peerRes⟩ | _ | _
    · rcases peerRes with e | p
      · refine ⟨⟨url, famToStr (some sock.family), st.last_sockaddr⟩, ?_, rfl, ?_⟩
        · cases hls : st.last_sockaddr <;>
            simp [IPv6OnlyHTTPAdapter.send, ObservingHTTPAdapter.send, hok, hin, hls]
        · intro hc; rcases hc with hc | hc <;> simp at hc
      · refine ⟨⟨url, famToStr (some sock.family), some p⟩, ?_, rfl, ?_⟩
        · simp [IPv6OnlyHTTPAdapter.send, ObservingHTTPAdapter.send, hok, hin]
        · intro hc; rcases hc with hc | hc <;> simp at hc
    · rcases peerRes with e | p
      · refine ⟨⟨url, famToStr (some sock.family), st.last_sockaddr⟩, ?_, rfl, ?_⟩
        · cases hls : st.last_sockaddr <;>
            simp [IPv6OnlyHTTPAdapter.send, ObservingHTTPAdapter.send, hok, hin, hls]
        · intro hc; rcases hc with hc | hc <;> simp at hc
      · refine ⟨⟨url, famToStr (some sock.family), some p⟩, ?_, rfl, ?_⟩
        · simp [IPv6OnlyHTTPAdapter.send, ObservingHTTPAdapter.send, hok, hin]
        · intro hc; rcases hc with hc | hc <;> simp at hc
    · exact ⟨⟨url, famToStr st.last_socket_family, st.last_sockaddr⟩,
        by simp [IPv6OnlyHTTPAdapter.send, ObservingHTTPAdapter.send, hok, hin], rfl,
        fun _ => ⟨rfl, rfl⟩⟩
    · exact ⟨⟨url, famToStr st.last_socket_family, st.last_sockaddr⟩,
        by simp [IPv6OnlyHTTPAdapter.send, ObservingHTTPAdapter.send, hok, hin], rfl,
        fun _ => ⟨rfl, rfl⟩⟩

/-- C6 witness: a concrete completed request whose stream introspection is
unavailable is logged from the last recorded observation and still
returns the base response. -/
theorem adapter_send_logs_and_returns_base_response_witness :
    (∃ line : LogLine,
        IPv6OnlyHTTPAdapter.send ⟨some AddrFamily.AF_INET6, some addrW⟩
          "https://modelscope.cn/f.bin" ⟨.ok ⟨7⟩, .unavailable⟩ = .ok (⟨7⟩, line)
        ∧ line.url = "https://modelscope.cn/f.bin"
        ∧ (((⟨.ok ⟨7⟩, .unavailable⟩ : SendEnv).introspect = .unavailable ∨
            (⟨.ok ⟨7⟩, .unavailable⟩ : SendEnv).introspect = .raisesAttr) →
            line.family = famToStr (some AddrFamily.AF_INET6) ∧ line.peer = some addrW))
    ∧ (∃ line : LogLine,
        ObservingHTTPAdapter.send ⟨some AddrFamily.AF_INET6, some addrW⟩
          "https://modelscope.cn/f.bin" ⟨.ok ⟨7⟩, .unavailable⟩ = .ok (⟨7⟩, line)
        ∧ line.url = "https://modelscope.cn/f.bin"
        ∧ (((⟨.ok ⟨7⟩, .unavailable⟩ : SendEnv).introspect = .unavailable ∨
            (⟨.ok ⟨7⟩, .unavailable⟩ : SendEnv).introspect = .raisesAttr) →
            line.family = famToStr (some AddrFamily.AF_INET6) ∧ line.peer = some addrW)) :=
  adapter_send_logs_and_returns_base_response ⟨some AddrFamily.AF_INET6, some addrW⟩
    "https://modelscope.cn/f.bin" ⟨.ok ⟨7⟩, .unavailable⟩ ⟨7⟩ rfl

/-- Folding outcomes never changes the `total` counter. -/
theorem foldl_countOutcome_total (f : ManifestEntry → JobOutcome) (l : List ManifestEntry)
    (s : Summary) :
    (l.foldl (fun acc e => countOutcome acc (f e)) s).total = s.total := by
  induction l generalizing s with
  | nil => rfl
  | cons e t ih =>
      rw [List.foldl_cons, ih]
      cases f e <;> rfl

/-- Each folded outcome adds exactly one to the sum of the three outcome
counters. -/
theorem foldl_countOutcome_sum (f : ManifestEntry → JobOutcome) (l : List ManifestEntry)
    (s : Summary) :
    (l.foldl (fun acc e => countOutcome acc (f e)) s).success +
      (l.foldl (fun acc e => countOutcome acc (f e)) s).skipped +
      (l.foldl (fun acc e => countOutcome acc (f e)) s).failed =
      s.success + s.skipped + s.failed + l.length := by
  induction l generalizing s with
  | nil => simp
  | cons e t ih =>
      rw [List.foldl_cons, ih]
      cases f e <;> simp [countOutcome] <;> ring

/-- C7: For every executed plan, the summary satisfies
`total = success + skipped + failed`, with `total` counting all entries
considered before dispatch (including those skipped by filtering or the
existence policy). -/
theorem summary_total_invariant (opts : ExecOptions) (env : ExecEnv)
    (entries : List ManifestEntry) :
    (executePlan opts env entries).total =
      (executePlan opts env entries).success + (executePlan opts env entries).skipped +
        (executePlan opts env entries).failed := by
  unfold executePlan
  rw [foldl_countOutcome_total, foldl_countOutcome_sum]
  simp

/-- An option list without `--workers` leaves the parsed worker count at
its starting value. -/
theorem foldl_workers_default (l : List DlOpt) (a : DownloadArgs)
    (h : ∀ o ∈ l, isWorkersOpt o = false) :
    (l.foldl applyDlOpt a).workers = a.workers := by
  induction l generalizing a with
  | nil => rfl
  | cons o t ih =>
      rw [List.foldl_cons, ih _ (fun x hx => h x (List.mem_cons_of_mem o hx))]
      have ho := h o (List.mem_cons_self o t)
      cases o <;> simp_all [applyDlOpt, isWorkersOpt]

/-- An option list without `--timeout` leaves the parsed timeout at its
starting value. -/
theorem foldl_timeout_default (l : List DlOpt) (a : DownloadArgs)
    (h : ∀ o ∈ l, isTimeoutOpt o = false) :
    (l.foldl applyDlOpt a).timeout = a.timeout := by
  induction l generalizing a with
  | nil => rfl
  | cons o t ih =>
      rw [List.foldl_cons, ih _ (fun x hx => h x (List.mem_cons_of_mem o hx))]
      have ho := h o (List.mem_cons_self o t)
      cases o <;> simp_all [applyDlOpt, isTimeoutOpt]

/-- The parsed `no_skip_existing` flag is true exactly when the starting
value is true or `--no-skip-existing` occurs among the given options. -/
theorem foldl_no_skip_existing (l : List DlOpt) (a : DownloadArgs) :
    (l.foldl applyDlOpt a).no_skip_existing =
      (a.no_skip_existing || l.any isNoSkipOpt) := by
  induction l generalizing a with
  | nil => simp
  | cons o t ih =>
      rw [List.foldl_cons, ih]
      cases o <;> simp [applyDlOpt, isNoSkipOpt]

/-- C8: For the `download` subcommand, `workers` defaults to 4 and
`timeout` to 60 when the flags are absent, and the `skip_existing` value
handed to the executor is true exactly when `--no-skip-existing` was not
given. -/
theorem download_option_defaults (given : List DlOpt)
    (hw : ∀ o ∈ given, isWorkersOpt o = false)
    (ht : ∀ o ∈ given, isTimeoutOpt o = false) :
    (parseDownloadArgs given).workers = 4
    ∧ (parseDownloadArgs given).timeout = 60
    ∧ ∀ given2 : List DlOpt,
        (mainDownloadCall (parseDownloadArgs given2)).skip_existing =
          !(given2.any isNoSkipOpt) := by
  refine ⟨?_, ?_, ?_⟩
  · exact foldl_workers_default given defaultDownloadArgs hw
  · exact foldl_timeout_default given defaultDownloadArgs ht
  · intro given2
    have h1 : (mainDownloadCall (parseDownloadArgs given2)).skip_existing =
        !(parseDownloadArgs given2).no_skip_existing := rfl
    rw [h1]
    unfold parseDownloadArgs
    rw [foldl_no_skip_existing]
    rfl

/-- C8 witness: parsing `download --overwrite` yields the default worker
count 4, the default timeout 60, and `skip_existing = true` whenever
`--no-skip-existing` is absent. -/
theorem download_option_defaults_witness :
    (∀ o ∈ [DlOpt.overwrite], isWorkersOpt o = false)
    ∧ ((parseDownloadArgs [DlOpt.overwrite]).workers = 4
      ∧ (parseDownloadArgs [DlOpt.overwrite]).timeout = 60
      ∧ ∀ given2 : List DlOpt,
          (mainDownloadCall (parseDownloadArgs given2)).skip_existing =
            !(given2.any isNoSkipOpt)) :=
  ⟨by decide, download_option_defaults [DlOpt.overwrite] (by decide) (by decide)⟩

/-- Running the mkdir chain over paths none of which is occupied by a
regular file succeeds, preserves the file set, preserves existing
directories, and makes every path on the chain a directory. -/
theorem mkdirChain_ok (qs : List (List String)) (fs : FS)
    (h : ∀ q ∈ qs, ¬ fs.hasFile q) :
    ∃ fs1, qs.foldlM mkdirOne fs = .ok fs1
      ∧ fs1.files = fs.files
      ∧ (∀ q, fs.hasDir q → fs1.hasDir q)
      ∧ (∀ q ∈ qs, fs1.hasDir q) := by
  induction qs generalizing fs with
  | nil => exact ⟨fs, rfl, rfl, fun _ hq => hq, by simp⟩
  | cons q t ih =>
      have hq : ¬ fs.hasFile q := h q (List.mem_cons_self q t)
      by_cases hd : fs.hasDir q
      · have step : mkdirOne fs q = .ok fs := by
          simp [mkdirOne, hq, hd]
        obtain ⟨fs1, hrun, hfiles, hmono, hall⟩ :=
          ih fs (fun x hx => h x (List.mem_cons_of_mem q hx))
        refine ⟨fs1, ?_, hfiles, hmono, ?_⟩
        · rw [List.foldlM_cons, step]
          exact hrun
        · intro x hx
          rcases List.mem_cons.mp hx with rfl | hx
          · exact hmono x hd
          · exact hall x hx
      · have step : mkdirOne fs q = .ok { fs with dirs := fs.dirs ++ [q] } := by
          simp [mkdirOne, hq, hd]
        obtain ⟨fs1, hrun, hfiles, hmono, hall⟩ :=
          ih { fs with dirs := fs.dirs ++ [q] }
            (fun x hx => h x (List.mem_cons_of_mem q hx))
        refine ⟨fs1, ?_, hfiles, ?_, ?_⟩
        · rw [List.foldlM_cons, step]
          exact hrun
        · intro x hxd
          refine hmono x ?_
          unfold FS.hasDir at hxd ⊢
          simp only [List.mem_append]
          exact Or.inl hxd
        · intro x hx
          rcases List.mem_cons.mp hx with rfl | hx
          · refine hmono x ?_
            unfold FS.hasDir
            simp
          · exact hall x hx

/-- Running the mkdir chain when every path on it is already a directory
(and none is a file) succeeds and leaves the filesystem unchanged. -/
theorem mkdirChain_idem (qs : List (List String)) (fs : FS)
    (h : ∀ q ∈ qs, fs.hasDir q ∧ ¬ fs.hasFile q) :
    qs.foldlM mkdirOne fs = .ok fs := by
  induction qs with
  | nil => rfl
  | cons q t ih =>
      obtain ⟨hd, hf⟩ := h q (List.mem_cons_self q t)
      have step : mkdirOne fs q = .ok fs := by simp [mkdirOne, hf, hd]
      rw [List.foldlM_cons, step]
      exact ih (fun x hx => h x (List.mem_cons_of_mem q hx))

/-- A nonempty component list is the last of its own prefixes. -/
theorem mem_pathPrefixes_self (p : List String) (hne : p ≠ []) : p ∈ pathPrefixes p := by
  unfold pathPrefixes
  have hlen : 0 < p.length := List.length_pos.mpr hne
  refine List.mem_map.mpr ⟨p.length - 1, ?_, ?_⟩
  · exact List.mem_range.mpr (by omega)
  · rw [Nat.sub_add_cancel hlen, List.take_length]

/-- C9 counterexample: when a regular file occupies the requested path,
`ensure_dir` raises (`mkdir` fails even with `exist_ok=True` because the
existing entry is not a directory) — so the claim does not hold for every
path string. -/
theorem ensure_dir_blocked_by_file :
    ensure_dir ⟨[], [["a"]]⟩ "a" = .error () := by rfl

/-- C9 (amended): for every path string such that no regular file occupies
the target path or any of its ancestors, `ensure_dir` succeeds, creates
the directory together with all missing parents (every prefix of the
parsed path is a directory afterwards, the parsed path itself included),
returns the parsed path, and calling it again on the same path succeeds
with the filesystem unchanged. -/
theorem ensure_dir_creates_and_idempotent (fs : FS) (path : String)
    (h : ∀ q ∈ pathPrefixes (splitPath path), ¬ fs.hasFile q) :
    ∃ fs1, ensure_dir fs path = .ok (splitPath path, fs1)
      ∧ (∀ q ∈ pathPrefixes (splitPath path), fs1.hasDir q)
      ∧ (splitPath path ≠ [] → fs1.hasDir (splitPath path))
      ∧ ensure_dir fs1 path = .ok (splitPath path, fs1) := by
  obtain ⟨fs1, hrun, hfiles, hmono, hall⟩ := mkdirChain_ok (pathPrefixes (splitPath path)) fs h
  refine ⟨fs1, ?_, hall, ?_, ?_⟩
  · unfold ensure_dir mkdirParents
    rw [hrun]
  · intro hne
    exact hall _ (mem_pathPrefixes_self _ hne)
  · unfold ensure_dir mkdirParents
    rw [mkdirChain_idem _ fs1 ?_]
    intro q hq
    refine ⟨hall q hq, ?_⟩
    have hnf := h q hq
    unfold FS.hasFile at hnf ⊢
    rw [hfiles]
    exact hnf

/-- C9 witness: on an empty filesystem, `ensure_dir "a/b"` creates both
directory levels and is idempotent. -/
theorem ensure_dir_creates_and_idempotent_witness :
    (∀ q ∈ pathPrefixes (splitPath "a/b"), ¬ (FS.mk [] []).hasFile q)
    ∧ ∃ fs1, ensure_dir ⟨[], []⟩ "a/b" = .ok (splitPath "a/b", fs1)
      ∧ (∀ q ∈ pathPrefixes (splitPath "a/b"), fs1.hasDir q)
      ∧ (splitPath "a/b" ≠ [] → fs1.hasDir (splitPath "a/b"))
      ∧ ensure_dir fs1 "a/b" = .ok (splitPath "a/b", fs1) :=
  ⟨by decide, ensure_dir_creates_and_idempotent ⟨[], []⟩ "a/b" (by decide)⟩
